import Mathlib

/-!
Verification development for the BuildingTools placement scripts
(instanceArray.py, instanceChain.py, instanceRadial.py, instanceUtilities.py).

The scene-graph side (Maya cmds calls: creating instances, parenting,
querying transforms) is an external collaborator; the embedding models the
placement geometry exactly as the source computes it, over exact rationals.
Floating-point literals of the source (1e-6, 1e-12, 0.5, 360.0) are carried
as the corresponding rationals.  Quantities that the source obtains from the
scene (world positions, bounding boxes, world matrices) are parameters of the
embedded functions.  Euclidean lengths, which the source obtains with
math.sqrt, are handled as follows: where the source only compares lengths
(max-distance scan) the embedding compares squared lengths, which agrees
because sqrt is strictly monotone on nonnegative reals; where the source
divides a sort key by a positive length (chain ordering) the embedding keeps
the unnormalized key, which induces the same comparisons; where a length is
a genuine data value (anchor distance, normalized travel direction) it is a
parameter of the embedding, documented at each site.
-/

namespace BuildingTools

/-- World-space vector / point with rational coordinates (the source uses
3-element Python float lists). -/
structure V3 where
  x : ℚ
  y : ℚ
  z : ℚ
deriving DecidableEq, Repr

/-- Source: instanceChain.py line 13, vector subtraction. -/
def vsub (a b : V3) : V3 := ⟨a.x - b.x, a.y - b.y, a.z - b.z⟩

/-- Source: instanceChain.py line 14, vector addition. -/
def vadd (a b : V3) : V3 := ⟨a.x + b.x, a.y + b.y, a.z + b.z⟩

/-- Source: instanceChain.py line 15, scalar multiple. -/
def vmul (a : V3) (s : ℚ) : V3 := ⟨a.x * s, a.y * s, a.z * s⟩

/-- Source: instanceChain.py line 16, dot product. -/
def dot (a b : V3) : ℚ := a.x * b.x + a.y * b.y + a.z * b.z

/-- Source: instanceChain.py lines 6-11, cross product. -/
def cross (a b : V3) : V3 :=
  ⟨a.y * b.z - a.z * b.y, a.z * b.x - a.x * b.z, a.x * b.y - a.y * b.x⟩

/-- Squared Euclidean distance.  The source (instanceChain.py line 17)
computes the distance itself with math.sqrt; every use of it in the
max-distance scan is a comparison, and sqrt is strictly monotone on
nonnegatives, so the embedding compares squared distances instead. -/
def dist2 (a b : V3) : ℚ := dot (vsub a b) (vsub a b)

/-- Component read by axis index 0/1/2 (the source indexes 3-lists). -/
def getComp (v : V3) (i : ℕ) : ℚ :=
  if i = 0 then v.x else if i = 1 then v.y else v.z

/-- Component write by axis index 0/1/2 (the source assigns into 3-lists). -/
def setComp (v : V3) (i : ℕ) (q : ℚ) : V3 :=
  if i = 0 then ⟨q, v.y, v.z⟩ else if i = 1 then ⟨v.x, q, v.z⟩ else ⟨v.x, v.y, q⟩

/-- Outcome of one placer call.  The source signals fatal errors with
cmds.error (which raises and propagates) and non-fatal conditions with
cmds.warning followed by returning an empty list; a normal completion
returns the created identifiers.  The embedding carries the computed
per-instance data in place of node identifiers. -/
inductive Outcome (α : Type) where
  | fatal : Outcome α
  | emptyWarn : Outcome α
  | created : α → Outcome α
deriving DecidableEq, Repr

/-- Number of instances a call creates: the length of the created list,
zero on the warning and fatal paths. -/
def createdCount {α : Type} : Outcome (List α) → ℕ
  | .created l => l.length
  | _ => 0

/-- Created list of a call, empty on warning and fatal paths. -/
def stepsOf {α : Type} : Outcome (List α) → List α
  | .created l => l
  | _ => []

/-- A numeric parameter as the source receives it: absent (None), present
but failing float()/int() conversion (TypeError/ValueError), or a value. -/
inductive NumParam where
  | absent : NumParam
  | unparsable : NumParam
  | value : ℚ → NumParam
deriving DecidableEq, Repr

/-- Python str.lower as used on the axis labels, applied characterwise
(ASCII; the standard String.toLower is avoided only because its
byte-position recursion does not evaluate inside proofs). -/
def strLower (s : String) : String := ⟨s.data.map Char.toLower⟩

/-- Axis label normalization used at instanceArray.py lines 24-26 (for
bbox_axis inside the bounding-box query helper) and lines 171-173 (for
alternate_scale_axis): take the label, defaulting a falsy value to x,
lowercase it, and silently fall back to x when it is not one of x/y/z. -/
def axisOrX (axis : String) : String :=
  let a := strLower (if axis = "" then "x" else axis)
  if a = "x" ∨ a = "y" ∨ a = "z" then a else "x"

/-- Source: instanceUtilities.py lines 197-201, the identical normalization
used by the mirroring utility. -/
def normalizeAxis (axis : String) : String :=
  let a := strLower (if axis = "" then "x" else axis)
  if a = "x" ∨ a = "y" ∨ a = "z" then a else "x"

/-- Axis-name to component-index map, source instanceArray.py line 5. -/
def axIdx (a : String) : ℕ := if a = "x" then 0 else if a = "y" then 1 else 2

/-! ## Linear array placer, instanceArray.py -/

/-- Mode selection at instanceArray.py line 135: bounding-box count mode is
active when use_bbox_spacing is set and either bbox_count_mode is set or no
parent resolved.  The parent option is some only for a resolved, existing
node. -/
def countModeFlag (use_bbox_spacing bbox_count_mode : Bool)
    (parent : Option String) : Bool :=
  use_bbox_spacing && (bbox_count_mode || parent.isNone)

/-- Attachment-target resolution at instanceArray.py lines 150-159: under
parent_instances_to_parent, count mode prefers the explicit parent and falls
back to the child's existing scene-graph parent; the anchored mode uses only
the explicit parent.  Options are some exactly for existing nodes. -/
def parentTarget (parent_instances_to_parent cm : Bool)
    (parent child_parent : Option String) : Option String :=
  if parent_instances_to_parent then
    if cm then
      match parent with
      | some p => some p
      | none => child_parent
    else parent
  else none

/-- Step multipliers of bounding-box count mode, instanceArray.py lines
198-202: clamp a negative count to 0, take multipliers 1..count, and append
count+1 when include_end is set. -/
def countModeMultipliers (count : ℤ) (include_end : Bool) : List ℤ :=
  let cv := if count < 0 then 0 else count
  let ms := (List.range cv.toNat).map (fun i : ℕ => (i : ℤ) + 1)
  if include_end then ms ++ [cv + 1] else ms

/-- Count-mode step computation, instanceArray.py lines 183-205.  The
bounding-box query result (spacing and world direction of the chosen local
axis, from the helper at lines 8-60) is a parameter: none models a failed
query, and a none direction models the degenerate-extent result.  The count
argument is none when int(count) raises. -/
def countModeSteps (info : Option (ℚ × Option V3)) (count : Option ℤ)
    (include_end : Bool) : Outcome (List ℤ) :=
  match info with
  | none => .emptyWarn
  | some (spacing_value, direction) =>
    if spacing_value ≤ 1/10^6 ∨ direction = none then .emptyWarn
    else
      match count with
      | none => .emptyWarn
      | some cv =>
        let ms := countModeMultipliers cv include_end
        if ms = [] then .emptyWarn else .created ms

/-- Instance positions of count mode, instanceArray.py lines 210-214:
each instance sits at the child position plus the world axis direction
times spacing times its multiplier (outward extrapolation). -/
def countModePositions (c_pos direction : V3) (spacing_value : ℚ)
    (ms : List ℤ) : List V3 :=
  ms.map (fun step : ℤ => vadd c_pos (vmul direction (spacing_value * (step : ℚ))))

/-- One pass of the spacing walk, instanceArray.py lines 295-298: while
current is strictly below total minus 1e-6, record current/total and add the
spacing.  Recursion is by explicit fuel; the wrapper supplies fuel exceeding
the iteration count on every path the source can reach (spacing positive). -/
def spacingWalkAux (spacing total eps : ℚ) : ℚ → ℕ → List ℚ
  | _, 0 => []
  | current, fuel + 1 =>
    if current < total - eps then
      current / total :: spacingWalkAux spacing total eps (current + spacing) fuel
    else []

/-- Spacing walk of instanceArray.py lines 295-298 starting at one spacing,
with the 1e-6 epsilon of line 287. -/
def spacingWalk (spacing total : ℚ) : List ℚ :=
  spacingWalkAux spacing total (1/10^6) spacing ((⌈total / spacing⌉).toNat + 1)

/-- Parametric steps of the anchored (non-count-mode) linear placer,
instanceArray.py lines 261-312.  Parameters: the bounding-box spacing query
result (used when use_bbox_spacing is set; none models a failed query), the
spacing argument as received, the count argument, include_end, and the
Euclidean distance between the two anchors (the source computes it at line
286 with math.sqrt; it is passed in exactly here). -/
def linearSteps (use_bbox_spacing : Bool) (bboxSpacing : Option ℚ)
    (spacing : NumParam) (count : ℤ) (include_end : Bool)
    (total_dist : ℚ) : Outcome (List ℚ) :=
  let resolved : Outcome (Option ℚ) :=
    if use_bbox_spacing then
      match bboxSpacing with
      | none => .emptyWarn
      | some sv => if sv ≤ 1/10^6 then .emptyWarn else .created (some sv)
    else
      match spacing with
      | .absent => .created none
      | .unparsable => .emptyWarn
      | .value v => if v ≤ 0 then .emptyWarn else .created (some v)
  match resolved with
  | .fatal => .fatal
  | .emptyWarn => .emptyWarn
  | .created none =>
    if count < 1 then .emptyWarn
    else
      let steps := (List.range count.toNat).map
        (fun i : ℕ => ((i : ℚ) + 1) / ((count : ℚ) + 1))
      let steps := if include_end then steps ++ [1] else steps
      if steps = [] then .emptyWarn else .created steps
  | .created (some spacing_value) =>
    if total_dist ≤ 1/10^6 then
      if include_end then .created [1] else .emptyWarn
    else
      let steps := spacingWalk spacing_value total_dist
      let steps := if include_end then steps ++ [1] else steps
      if steps = [] then .emptyWarn else .created steps

/-- World positions of the anchored placement loop, instanceArray.py line
316: linear interpolation between the parent and child positions. -/
def linearPositions (p_pos c_pos : V3) (steps : List ℚ) : List V3 :=
  steps.map (fun t => vadd p_pos (vmul (vsub c_pos p_pos) t))

/-- Alternating-scale value of one instance, instanceArray.py lines 339-350
(the identical block also appears at 241-252): instances with odd 0-based
index get the chosen component of the template scale multiplied by -1, even
indices keep it, the other components are written back unchanged.  The axis
index comes from the normalization at lines 171-173. -/
def instanceScale (base_scale : V3) (alternate_scale_axis : String)
    (index : ℕ) : V3 :=
  let ai := axIdx (axisOrX alternate_scale_axis)
  let flip : ℚ := if index % 2 = 1 then -1 else 1
  setComp base_scale ai (getComp base_scale ai * flip)

/-! ## Chain placer, instanceChain.py -/

/-- All index pairs i < j in the row-major scan order of the nested loops at
instanceChain.py lines 59-66. -/
def pairsUpTo (n : ℕ) : List (ℕ × ℕ) :=
  (List.range n).flatMap (fun i => ((List.range n).drop (i + 1)).map (fun j => (i, j)))

/-- Farthest-pair scan, instanceChain.py lines 54-67: scan all pairs i < j,
keeping the first pair realizing the maximum distance (strict improvement
test against a sentinel of -1).  Distances are compared squared, which
agrees with the source's sqrt distances by strict monotonicity of sqrt; the
sentinel -1 is below both. -/
def maxDistPair (points : List V3) : ℕ × ℕ :=
  ((pairsUpTo points.length).foldl
    (fun acc ij =>
      let d := dist2 (points.getD ij.1 ⟨0, 0, 0⟩) (points.getD ij.2 ⟨0, 0, 0⟩)
      if acc.1 < d then (d, ij) else acc)
    ((-1 : ℚ), ((0 : ℕ), (0 : ℕ)))).2

/-- Direction vector used for the projection sort key.  The source (line
138 via the helper at lines 18-20) normalizes B - A when its length exceeds
1e-12 and yields the zero vector otherwise; dividing the key by the positive
length does not change any comparison made by the sort, so the embedding
keeps the unnormalized vector, with the threshold squared. -/
def normScaled (a : V3) : V3 :=
  if 1/10^24 < dot a a then a else ⟨0, 0, 0⟩

/-- Projection sort key of instanceChain.py line 140: the dot product of
point minus A with the (scaled, see normScaled) A-to-B direction. -/
def chainKey (pts : List V3) (i : ℕ) : ℚ :=
  let pr := maxDistPair pts
  let A := pts.getD pr.1 ⟨0, 0, 0⟩
  let B := pts.getD pr.2 ⟨0, 0, 0⟩
  dot (vsub (pts.getD i ⟨0, 0, 0⟩) A) (normScaled (vsub B A))

/-- Chain ordering of instanceChain.py lines 136-140: indices 0..n-1 sorted
ascending and stably by the projection key (Python's sorted is a stable
sort, as is mergeSort). -/
def chainOrderIndices (pts : List V3) : List ℕ :=
  (List.range pts.length).mergeSort
    (fun i j => decide (chainKey pts i ≤ chainKey pts j))

/-- Reordered node list of instanceChain.py line 141, on (node, position)
pairs: positions are extracted (line 133), the ordering computed, and the
nodes picked out in that order. -/
def orderChain {α : Type} (targets : List (α × V3)) : List (α × V3) :=
  let pts := targets.map (fun t => t.2)
  (chainOrderIndices pts).filterMap (fun i => targets[i]?)

/-- Spacing-parameter resolution of the chain placer, instanceChain.py lines
158-171: fill-box mode ignores spacing; otherwise an unparsable value warns
and returns empty, a nonpositive value warns and returns empty, a positive
value selects spacing mode. -/
def chainSpacingResolve (fill_boxes : Bool) (spacing : NumParam) :
    Outcome (Option ℚ) :=
  if fill_boxes then .created none
  else
    match spacing with
    | .absent => .created none
    | .unparsable => .emptyWarn
    | .value v => if v ≤ 0 then .emptyWarn else .created (some v)

/-- World-space bounding-box data of one waypoint, instanceChain.py lines
26-47: the 8 corners (x outermost, then y, then z) and the center. -/
structure BBoxData where
  corners : List V3
  center : V3
deriving DecidableEq, Repr

/-- Corner enumeration order of the loops at instanceChain.py lines 36-39. -/
def bboxCorners (minv maxv : V3) : List V3 :=
  [⟨minv.x, minv.y, minv.z⟩, ⟨minv.x, minv.y, maxv.z⟩,
   ⟨minv.x, maxv.y, minv.z⟩, ⟨minv.x, maxv.y, maxv.z⟩,
   ⟨maxv.x, minv.y, minv.z⟩, ⟨maxv.x, minv.y, maxv.z⟩,
   ⟨maxv.x, maxv.y, minv.z⟩, ⟨maxv.x, maxv.y, maxv.z⟩]

/-- Bounding-box data built from a min/max corner pair, mirroring
instanceChain.py lines 34-47. -/
def worldBBoxData (minv maxv : V3) : BBoxData :=
  ⟨bboxCorners minv maxv,
   ⟨(minv.x + maxv.x) * (1/2), (minv.y + maxv.y) * (1/2), (minv.z + maxv.z) * (1/2)⟩⟩

/-- Projected range of a point set, instanceChain.py lines 50-52: min and
max of the dot products of point minus origin with the axis, and (0, 0) for
an empty set. -/
def projRange (points : List V3) (axis origin : V3) : ℚ × ℚ :=
  match points.map (fun p => dot (vsub p origin) axis) with
  | [] => (0, 0)
  | v :: vs => (vs.foldl min v, vs.foldl max v)

/-- Fill-divisions clamp of instanceChain.py lines 177-183: an unparsable
value (none) falls back to 1, and values below 1 are clamped to 1. -/
def fillDivisionsValue (fill_divisions : Option ℤ) : ℕ :=
  match fill_divisions with
  | none => 1
  | some v => if v < 1 then 1 else v.toNat

/-- Longitudinal fill spans of one waypoint pair, instanceChain.py lines
209-215 and 250-253: project both corner sets onto the travel direction from
the left box center, take the gap between the left maximum and the right
minimum, skip the pair when the gap is at most 1e-6, and otherwise cut the
gap into nd equal segments, each described by (mid_scalar, segment_length);
mid_scalar positions the box center along the direction (lines 290-294) and
segment_length is its longitudinal scale (line 255).  The unit travel
direction dir_z (line 207, the normalized center-to-center vector) is a
parameter because exact rationals cannot express the square root; concrete
instances pass the exact normalized value. -/
def fillPairSpans (left_corners right_corners : List V3) (anchor dir_z : V3)
    (nd : ℕ) : List (ℚ × ℚ) :=
  let left_proj := projRange left_corners dir_z anchor
  let right_proj := projRange right_corners dir_z anchor
  let gap_total := right_proj.1 - left_proj.2
  if gap_total ≤ 1/10^6 then []
  else
    let segment_length := gap_total / (nd : ℚ)
    (List.range nd).map
      (fun dv : ℕ => (left_proj.2 + segment_length * (dv : ℚ) + segment_length * (1/2),
                  segment_length))

/-- Fill handling of one consecutive pair including the skip guards of
instanceChain.py lines 197-205: a pair with an unmeasurable box is skipped,
as is a pair whose centers are closer than 1e-6 (compared squared here). -/
def fillPair (left right : Option BBoxData) (dir_z : V3) (nd : ℕ) :
    List (ℚ × ℚ) :=
  match left, right with
  | some lb, some rb =>
    if dist2 lb.center rb.center < 1/10^12 then []
    else fillPairSpans lb.corners rb.corners lb.center dir_z nd
  | _, _ => []

/-- Consecutive pairs of an ordered list, the loop frame of
instanceChain.py line 193. -/
def consecutivePairs {α : Type} : List α → List (α × α)
  | a :: b :: rest => (a, b) :: consecutivePairs (b :: rest)
  | _ => []

/-- Fill-box loop over the whole ordered chain, instanceChain.py lines
193-306: each consecutive pair contributes its spans, skipped pairs
contribute nothing, and the results concatenate in order.  The unit travel
direction of each pair is supplied by the dirn parameter (see
fillPairSpans). -/
def fillChain (boxes : List (Option BBoxData)) (dirn : V3 → V3 → V3)
    (nd : ℕ) : List (ℚ × ℚ) :=
  (consecutivePairs boxes).flatMap
    (fun lr =>
      let dz := match lr.1, lr.2 with
        | some lb, some rb => dirn lb.center rb.center
        | _, _ => ⟨0, 0, 0⟩
      fillPair lr.1 lr.2 dz nd)

/-- Fill-box call outcome, instanceChain.py lines 114-130 and 364-370: fewer
than two resolvable targets is fatal (cmds.error), and a run producing no
box at all completes with a warning and an empty list. -/
def chainFillCall (boxes : List (Option BBoxData)) (dirn : V3 → V3 → V3)
    (fill_divisions : Option ℤ) : Outcome (List (ℚ × ℚ)) :=
  if boxes.length < 2 then .fatal
  else
    let spans := fillChain boxes dirn (fillDivisionsValue fill_divisions)
    if spans = [] then .emptyWarn else .created spans

/-! ## Radial placer, instanceRadial.py -/

/-- Radial placement call, instanceRadial.py lines 18-64: fewer than two
selected transforms is fatal (cmds.error), an axis whose lowercase form is
not x/y/z is fatal, a zero instance count makes the angle-step division
raise (fatal), and otherwise instance i receives pivot rotation
360/num_instances times i about the chosen axis, in creation order. -/
def radialCall (selCount : ℕ) (axis : String) (num_instances : ℕ) :
    Outcome (List ℚ) :=
  if selCount < 2 then .fatal
  else
    let a := strLower axis
    if ¬(a = "x" ∨ a = "y" ∨ a = "z") then .fatal
    else if num_instances = 0 then .fatal
    else .created ((List.range num_instances).map
      (fun i : ℕ => 360 / (num_instances : ℚ) * (i : ℚ)))

/-! ## Helper lemmas -/

lemma getComp_setComp_self (v : V3) (i : ℕ) (q : ℚ) :
    getComp (setComp v i q) i = q := by
  unfold getComp setComp
  by_cases h0 : i = 0
  · simp [h0]
  · by_cases h1 : i = 1 <;> simp [h0, h1]

lemma getComp_setComp_ne (v : V3) (i j : ℕ) (q : ℚ) (hi : i < 3) (hj : j < 3)
    (hne : j ≠ i) : getComp (setComp v i q) j = getComp v j := by
  unfold getComp setComp
  interval_cases i <;> interval_cases j <;> simp_all

lemma axisOrX_cases (axis : String) :
    axisOrX axis = "x" ∨ axisOrX axis = "y" ∨ axisOrX axis = "z" := by
  unfold axisOrX
  by_cases h : (strLower (if axis = "" then "x" else axis) = "x"
      ∨ strLower (if axis = "" then "x" else axis) = "y"
      ∨ strLower (if axis = "" then "x" else axis) = "z")
  · simp [h]
  · simp [h]

lemma axIdx_lt_three (s : String) : axIdx s < 3 := by
  unfold axIdx
  by_cases h0 : s = "x"
  · simp [h0]
  · by_cases h1 : s = "y" <;> simp [h0, h1]

lemma filterMap_getElem?_range {α : Type} (l : List α) :
    (List.range l.length).filterMap (fun i => l[i]?) = l := by
  induction l with
  | nil => simp
  | cons a l ih =>
    rw [List.length_cons, List.range_succ_eq_map, List.filterMap_cons]
    simp only [List.getElem?_cons_zero, List.filterMap_map]
    have hcomp : (fun i => (a :: l)[i]?) ∘ Nat.succ = fun i => l[i]? := by
      funext i
      simp
    rw [hcomp, ih]

lemma spacingWalkAux_length (s D e : ℚ) (hs : 0 < s) :
    ∀ (fuel : ℕ) (c : ℚ),
      (spacingWalkAux s D e c fuel).length = min fuel (⌈(D - e - c) / s⌉.toNat) := by
  intro fuel
  induction fuel with
  | zero => intro c; simp [spacingWalkAux]
  | succ n ih =>
    intro c
    by_cases h : c < D - e
    · have hstep : (D - e - c) / s = (D - e - (c + s)) / s + 1 := by
        field_simp
        ring
      have hK : ⌈(D - e - c) / s⌉ = ⌈(D - e - (c + s)) / s⌉ + 1 := by
        rw [hstep, Int.ceil_add_one]
      have hpos : 0 < ⌈(D - e - c) / s⌉ := by
        rw [Int.ceil_pos]
        have : 0 < D - e - c := by linarith
        positivity
      simp only [spacingWalkAux, if_pos h, List.length_cons, ih]
      omega
    · have hle : ⌈(D - e - c) / s⌉ ≤ 0 := by
        have hnum : (D - e - c) / s ≤ 0 := by
          rw [div_le_iff₀ hs]
          linarith
        exact Int.ceil_le.mpr (by push_cast; linarith)
      simp only [spacingWalkAux, if_neg h, List.length_nil]
      omega

lemma spacingWalk_length (s D : ℚ) (hs : 0 < s) :
    (spacingWalk s D).length = (⌈(D - 1/10^6 - s) / s⌉).toNat := by
  unfold spacingWalk
  rw [spacingWalkAux_length s D _ hs]
  have h1 : ⌈(D - 1/10^6 - s) / s⌉ ≤ ⌈D / s⌉ := by
    apply Int.ceil_le_ceil
    gcongr
    linarith
  omega

lemma countModeMultipliers_eq (cv : ℤ) (ie : Bool) :
    countModeMultipliers cv ie
      = (List.range ((if cv < 0 then 0 else cv).toNat + (if ie then 1 else 0))).map
          (fun k : ℕ => (k : ℤ) + 1) := by
  unfold countModeMultipliers
  have hnn : (0 : ℤ) ≤ if cv < 0 then 0 else cv := by split <;> omega
  cases ie with
  | false => simp
  | true =>
    simp only [if_pos rfl, ite_true]
    rw [List.range_succ, List.map_append]
    simp only [List.map_cons, List.map_nil]
    rw [Int.toNat_of_nonneg hnn]

lemma linearSteps_fixedCount (n : ℤ) (hn : 1 ≤ n) (ie : Bool) (td : ℚ) :
    linearSteps false none .absent n ie td
      = .created (if ie then
          ((List.range n.toNat).map (fun i : ℕ => ((i : ℚ) + 1) / ((n : ℚ) + 1))) ++ [1]
        else (List.range n.toNat).map (fun i : ℕ => ((i : ℚ) + 1) / ((n : ℚ) + 1))) := by
  have hlt : ¬ n < 1 := by omega
  have hne : (List.range n.toNat).map (fun i : ℕ => ((i : ℚ) + 1) / ((n : ℚ) + 1)) ≠ [] := by
    simp only [ne_eq, List.map_eq_nil_iff, List.range_eq_nil]
    omega
  cases ie with
  | false => simp [linearSteps, hlt, hne]
  | true => simp [linearSteps, hlt]

/-! ## Claim C1 -/

/-- Claim C1: for a FixedCount linear placement with count n at least 1,
resolvable anchors at positive distance and include_end off, the placer
creates exactly n instances, at parametric steps i/(n+1) for i = 1..n, in
strictly increasing order, all strictly between 0 and 1, with the i-th
world position interpolated between the parent and child positions at that
step. -/
theorem fixedCount_interior_steps (n : ℤ) (hn : 1 ≤ n) (p c : V3) (td : ℚ)
    (_htd : 0 < td) :
    linearSteps false none .absent n false td
        = .created ((List.range n.toNat).map (fun i : ℕ => ((i : ℚ) + 1) / ((n : ℚ) + 1)))
      ∧ (stepsOf (linearSteps false none .absent n false td)).length = n.toNat
      ∧ (∀ t ∈ stepsOf (linearSteps false none .absent n false td), 0 < t ∧ t < 1)
      ∧ List.Pairwise (fun a b => a < b)
          (stepsOf (linearSteps false none .absent n false td))
      ∧ (∀ i < n.toNat,
          (linearPositions p c (stepsOf (linearSteps false none .absent n false td)))[i]?
            = some (vadd p (vmul (vsub c p) (((i : ℚ) + 1) / ((n : ℚ) + 1))))) := by
  have hstep := linearSteps_fixedCount n hn false td
  simp only [Bool.false_eq_true, if_false] at hstep
  have hnq : (0 : ℚ) < (n : ℚ) + 1 := by
    have : (0 : ℚ) ≤ (n : ℚ) := by exact_mod_cast (by omega : (0 : ℤ) ≤ n)
    linarith
  refine ⟨hstep, ?_, ?_, ?_, ?_⟩
  · rw [hstep]
    simp [stepsOf]
  · rw [hstep]
    intro t ht
    simp only [stepsOf, List.mem_map, List.mem_range] at ht
    obtain ⟨i, hi, rfl⟩ := ht
    have hiq : (i : ℚ) < (n : ℚ) := by
      have : (i : ℤ) < n := by omega
      exact_mod_cast this
    constructor
    · apply div_pos (by positivity) hnq
    · rw [div_lt_one hnq]
      linarith
  · rw [hstep]
    simp only [stepsOf]
    rw [List.pairwise_map]
    refine (List.pairwise_lt_range _).imp ?_
    intro a b hab
    rw [div_lt_div_iff_of_pos_right hnq]
    have : (a : ℚ) < (b : ℚ) := by exact_mod_cast hab
    linarith
  · intro i hi
    rw [hstep]
    simp only [stepsOf, linearPositions, List.map_map]
    rw [List.getElem?_map, List.getElem?_range hi]
    rfl

/-- Witness for C1 at n = 3, parent at the origin, child at (10, 0, 0). -/
theorem fixedCount_interior_steps_witness :
    ((1 : ℤ) ≤ 3 ∧ (0 : ℚ) < 10) ∧
    linearSteps false none .absent 3 false 10 = .created [1/4, 1/2, 3/4] ∧
    (∀ t ∈ stepsOf (linearSteps false none .absent 3 false 10), 0 < t ∧ t < 1) := by
  have h := fixedCount_interior_steps 3 (by decide) ⟨0, 0, 0⟩ ⟨10, 0, 0⟩ 10 (by norm_num)
  exact ⟨⟨by decide, by norm_num⟩,
    by rw [h.1]; norm_num [List.range_succ, show Int.toNat 3 = 3 from rfl], h.2.2.1⟩

/-! ## Claim C4 -/

/-- Counterexample to claim C4 as stated: at anchor distance
D = 8.0000015 and spacing d = 2, the ratio D/d = 4.00000075 is within 1e-6
of the integer 4, so the claim predicts floor(D/d) - 1 = 3 interior steps,
but the code places 4 (its 1e-6 boundary tolerance is absolute on the
distance D, not on the ratio D/d). -/
theorem fixedSpacing_claim_counterexample :
    |(16000003 : ℚ) / 2000000 / 2 - 4| < 1 / 10 ^ 6
    ∧ ⌊(16000003 : ℚ) / 2000000 / 2⌋ = 4
    ∧ createdCount
        (linearSteps false none (.value 2) 5 false ((16000003 : ℚ) / 2000000)) = 4 := by
  refine ⟨?_, by norm_num, ?_⟩
  · have habs : (16000003 : ℚ) / 2000000 / 2 - 4 = 3 / 4000000 := by norm_num
    rw [habs, abs_of_pos (by norm_num)]
    norm_num
  · have hceil : ⌈(16000003 : ℚ) / 2000000 / 2⌉ = 5 := by
      rw [Int.ceil_eq_iff]
      norm_num
    have hwalk : spacingWalk 2 ((16000003 : ℚ) / 2000000)
        = [4000000/16000003, 8000000/16000003, 12000000/16000003, 16000000/16000003] := by
      unfold spacingWalk
      rw [hceil]
      norm_num [spacingWalkAux]
    norm_num [linearSteps, hwalk, createdCount, List.cons_ne_nil]

/-- Claim C4 as amended: for spacing d and anchor distance D both above the
1e-6 tolerance, the number of interior instances (include_end off) equals
floor(D/d), except when D exceeds the multiple floor(D/d) * d by at most
1e-6 (the walk's strict boundary test with its absolute 1e-6 margin fails
there), in which case it is one fewer. -/
theorem fixedSpacing_step_count (d D : ℚ) (hd : 1/10^6 < d) (hD : 1/10^6 < D)
    (count : ℤ) :
    createdCount (linearSteps false none (.value d) count false D)
      = (if D - ⌊D / d⌋ * d ≤ 1/10^6 then ⌊D / d⌋ - 1 else ⌊D / d⌋).toNat := by
  have hd0 : 0 < d := lt_trans (by norm_num) hd
  have hD0 : 0 < D := lt_trans (by norm_num) hD
  have h1 : ¬ d ≤ 0 := not_le.mpr hd0
  have h2 : ¬ D ≤ 1/10^6 := not_le.mpr hD
  have h2i : ¬ D ≤ ((10 : ℚ) ^ 6)⁻¹ := by rwa [one_div] at h2
  have hcc : createdCount (linearSteps false none (.value d) count false D)
      = (spacingWalk d D).length := by
    by_cases hnil : spacingWalk d D = []
    · simp [linearSteps, h1, h2, h2i, hnil, createdCount]
    · simp [linearSteps, h1, h2, h2i, hnil, createdCount]
  rw [hcc, spacingWalk_length d D hd0]
  set F := ⌊D / d⌋ with hF
  have hFle : (F : ℚ) * d ≤ D := by
    have hfl : (F : ℚ) ≤ D / d := Int.floor_le (D / d)
    calc (F : ℚ) * d ≤ (D / d) * d := mul_le_mul_of_nonneg_right hfl hd0.le
    _ = D := div_mul_cancel₀ D (ne_of_gt hd0)
  have hFlt : D < ((F : ℚ) + 1) * d := by
    have hfl : D / d < (F : ℚ) + 1 := Int.lt_floor_add_one (D / d)
    calc D = (D / d) * d := (div_mul_cancel₀ D (ne_of_gt hd0)).symm
    _ < ((F : ℚ) + 1) * d := mul_lt_mul_of_pos_right hfl hd0
  have key : ⌈(D - 1/10^6 - d) / d⌉ = (if D - (F : ℚ) * d ≤ 1/10^6 then F - 1 else F) := by
    have hrw : (D - 1/10^6 - d) / d = (D - 1/10^6) / d - 1 := by
      field_simp
    rw [hrw, Int.ceil_sub_one]
    split
    case isTrue h =>
      have hceq : ⌈(D - 1/10^6) / d⌉ = F := by
        rw [Int.ceil_eq_iff]
        constructor
        · rw [lt_div_iff₀ hd0]
          have hexp : ((F : ℚ) - 1) * d = (F : ℚ) * d - d := by ring
          rw [hexp]
          linarith
        · rw [div_le_iff₀ hd0]
          linarith
      omega
    case isFalse h =>
      have hgt : 1/10^6 < D - (F : ℚ) * d := not_le.mp h
      have hceq : ⌈(D - 1/10^6) / d⌉ = F + 1 := by
        rw [Int.ceil_eq_iff]
        constructor
        · push_cast
          have hexp : ((F : ℚ) + 1 - 1) = (F : ℚ) := by ring
          rw [hexp, lt_div_iff₀ hd0]
          linarith
        · rw [div_le_iff₀ hd0]
          push_cast
          linarith
      omega
  rw [key]

/-- Witness for the amended C4 at D = 10, d = 2.5: three interior steps, at
parametric positions 1/4, 1/2, 3/4 (world steps 2.5, 5.0, 7.5). -/
theorem fixedSpacing_step_count_witness :
    ((1 : ℚ)/10^6 < 5/2 ∧ (1 : ℚ)/10^6 < 10) ∧
    createdCount (linearSteps false none (.value (5/2)) 7 false 10)
      = (if (10 : ℚ) - ⌊(10 : ℚ) / (5/2)⌋ * (5/2) ≤ 1/10^6 then ⌊(10 : ℚ) / (5/2)⌋ - 1
         else ⌊(10 : ℚ) / (5/2)⌋).toNat ∧
    createdCount (linearSteps false none (.value (5/2)) 7 false 10) = 3 ∧
    stepsOf (linearSteps false none (.value (5/2)) 7 false 10) = [1/4, 1/2, 3/4] :=
  ⟨⟨by norm_num, by norm_num⟩,
   fixedSpacing_step_count (5/2) 10 (by norm_num) (by norm_num) 7,
   by norm_num [linearSteps, createdCount, spacingWalk, spacingWalkAux, List.cons_ne_nil],
   by norm_num [linearSteps, stepsOf, spacingWalk, spacingWalkAux, List.cons_ne_nil]⟩

lemma countModeMultipliers_getElem (cv : ℤ) (ie : Bool) (i : ℕ)
    (hi : i < (countModeMultipliers cv ie).length) :
    (countModeMultipliers cv ie)[i]? = some ((i : ℤ) + 1) := by
  rw [countModeMultipliers_eq] at hi ⊢
  rw [List.length_map, List.length_range] at hi
  rw [List.getElem?_map, List.getElem?_range hi]
  rfl

lemma spacingWalkAux_mem (s D e : ℚ) (hs : 0 < s) (hD : 0 < D) (he : 0 ≤ e) :
    ∀ (fuel : ℕ) (c : ℚ), 0 < c → ∀ t ∈ spacingWalkAux s D e c fuel, 0 < t ∧ t < 1 := by
  intro fuel
  induction fuel with
  | zero =>
    intro c _ t ht
    simp [spacingWalkAux] at ht
  | succ n ih =>
    intro c hc t ht
    by_cases h : c < D - e
    · simp only [spacingWalkAux, if_pos h, List.mem_cons] at ht
      rcases ht with rfl | ht
      · refine ⟨by positivity, ?_⟩
        rw [div_lt_one hD]
        linarith
      · exact ih (c + s) (by linarith) t ht
    · simp [spacingWalkAux, if_neg h] at ht

/-! ## Claim C5 -/

/-- Counterexample to claim C5 as stated: with use_bbox_spacing set but a
parent supplied and bbox_count_mode unset, the mode flag is off and the
placer interpolates between the anchors (first instance at (2,0,0), strictly
between the anchors at the origin and (10,0,0)) instead of stepping outward
from the child, whose first outward step would sit at (12,0,0). -/
theorem bbox_spacing_mode_counterexample :
    countModeFlag true false (some "parent") = false
    ∧ stepsOf (linearSteps true (some 2) .absent 5 false 10) = [1/5, 2/5, 3/5, 4/5]
    ∧ linearPositions ⟨0, 0, 0⟩ ⟨10, 0, 0⟩
        (stepsOf (linearSteps true (some 2) .absent 5 false 10))
        = [⟨2, 0, 0⟩, ⟨4, 0, 0⟩, ⟨6, 0, 0⟩, ⟨8, 0, 0⟩]
    ∧ (⟨2, 0, 0⟩ : V3) ≠ vadd ⟨10, 0, 0⟩ (vmul ⟨1, 0, 0⟩ (2 * 1)) := by
  have hsteps : stepsOf (linearSteps true (some 2) .absent 5 false 10)
      = [1/5, 2/5, 3/5, 4/5] := by
    norm_num [linearSteps, stepsOf, spacingWalk, spacingWalkAux, List.cons_ne_nil]
  refine ⟨rfl, hsteps, ?_, ?_⟩
  · rw [hsteps]
    norm_num [linearPositions, vadd, vmul, vsub]
  · norm_num [vadd, vmul]

/-- Claim C5 as amended: bounding-box count mode (extrapolation) is active
exactly when use_bbox_spacing is set and bbox_count_mode is set or no parent
is supplied; in that mode the i-th instance sits at the child position plus
i+1 bbox-spacing steps along the world axis direction, a parent is optional
and, when absent, the child's existing scene-graph parent is the attachment
target.  When use_bbox_spacing is set with a parent and without
bbox_count_mode, the flag is off and the bbox-derived spacing instead drives
the anchored interpolation walk, whose steps all lie strictly inside the
parent-to-child segment. -/
theorem bbox_count_mode_extrapolation
    (parent : Option String) (s : String) (cp : Option String)
    (c dir : V3) (sv : ℚ) (cv : ℤ) (ie : Bool) (i : ℕ)
    (hi : i < (countModeMultipliers cv ie).length)
    (D : ℚ) (hsv : 0 < sv) (hD : 0 < D) :
    countModeFlag true true parent = true
    ∧ countModeFlag true false none = true
    ∧ countModeFlag true false (some s) = false
    ∧ (countModeMultipliers cv ie)[i]? = some ((i : ℤ) + 1)
    ∧ (countModePositions c dir sv (countModeMultipliers cv ie))[i]?
        = some (vadd c (vmul dir (sv * ((i : ℚ) + 1))))
    ∧ parentTarget true true none cp = cp
    ∧ parentTarget true true (some s) cp = some s
    ∧ (∀ t ∈ spacingWalk sv D, 0 < t ∧ t < 1) := by
  refine ⟨rfl, rfl, rfl, countModeMultipliers_getElem cv ie i hi, ?_, rfl, rfl, ?_⟩
  · unfold countModePositions
    rw [List.getElem?_map, countModeMultipliers_getElem cv ie i hi]
    simp only [Option.map_some']
    push_cast
    rfl
  · intro t ht
    exact spacingWalkAux_mem sv D (1/10^6) hsv hD (by norm_num) _ sv hsv t ht

/-- Witness for the amended C5: count 4, spacing 2, direction (1,0,0): the
third instance (index 2) sits at (6,0,0), three spacing steps from the
child at the origin; with a parent supplied the mode flag is off. -/
theorem bbox_count_mode_extrapolation_witness :
    (2 < (countModeMultipliers 4 false).length ∧ (0 : ℚ) < 2 ∧ (0 : ℚ) < 10) ∧
    countModeFlag true false (some "q") = false ∧
    (countModeMultipliers 4 false)[2]? = some 3 ∧
    (countModePositions ⟨0, 0, 0⟩ ⟨1, 0, 0⟩ 2 (countModeMultipliers 4 false))[2]?
      = some ⟨6, 0, 0⟩ := by
  have h := bbox_count_mode_extrapolation (some "q") "q" (some "g") ⟨0, 0, 0⟩ ⟨1, 0, 0⟩
    2 4 false 2 (by decide) 10 (by norm_num) (by norm_num)
  refine ⟨⟨by decide, by norm_num, by norm_num⟩, h.2.2.1, ?_, ?_⟩
  · rw [h.2.2.2.1]
    decide
  · rw [h.2.2.2.2.1]
    norm_num [vadd, vmul]

/-! ## Claim C6 -/

/-- Counterexample to claim C6 as stated: a FixedCount call with count 0
returns an empty result both with and without include_end (the count guard
fires before any instance is placed), so include_end does not add exactly
one more instance for every placement configuration. -/
theorem include_end_counterexample :
    ¬ (createdCount (linearSteps false none .absent 0 true 10)
        = createdCount (linearSteps false none .absent 0 false 10) + 1) := by
  decide

/-- Claim C6 as amended: include_end adds exactly one more instance in every
configuration that passes the parameter guards: FixedCount with count at
least 1 and FixedSpacing with positive spacing both append one extra step at
parametric position 1.0; bounding-box count mode appends one extra multiplier
cv+1 (cv the clamped count), placing the extra instance one further
bbox-spacing step beyond the last interior one rather than at a parametric
position (there is no far anchor in that mode).  For FixedCount with count
below 1, both calls return empty. -/
theorem include_end_adds_one
    (n : ℤ) (hn : 1 ≤ n) (td : ℚ)
    (d D : ℚ) (hd : 0 < d)
    (sv : ℚ) (hsv : 1/10^6 < sv) (dir : V3) (cv : ℤ) (c : V3) :
    (createdCount (linearSteps false none .absent n true td)
        = createdCount (linearSteps false none .absent n false td) + 1
      ∧ (stepsOf (linearSteps false none .absent n true td)).getLast? = some 1)
    ∧ (createdCount (linearSteps false none (.value d) n true D)
        = createdCount (linearSteps false none (.value d) n false D) + 1
      ∧ (stepsOf (linearSteps false none (.value d) n true D)).getLast? = some 1)
    ∧ (createdCount (countModeSteps (some (sv, some dir)) (some cv) true)
        = createdCount (countModeSteps (some (sv, some dir)) (some cv) false) + 1
      ∧ stepsOf (countModeSteps (some (sv, some dir)) (some cv) true)
          = stepsOf (countModeSteps (some (sv, some dir)) (some cv) false)
              ++ [(if cv < 0 then 0 else cv) + 1]
      ∧ countModePositions c dir sv
            (stepsOf (countModeSteps (some (sv, some dir)) (some cv) true))
          = countModePositions c dir sv
              (stepsOf (countModeSteps (some (sv, some dir)) (some cv) false))
            ++ [vadd c (vmul dir (sv * (((if cv < 0 then 0 else cv) + 1 : ℤ) : ℚ)))]) := by
  have h1 : ¬ d ≤ 0 := not_le.mpr hd
  refine ⟨?_, ?_, ?_⟩
  · have ht := linearSteps_fixedCount n hn true td
    have hf := linearSteps_fixedCount n hn false td
    simp only [if_pos rfl] at ht
    simp only [Bool.false_eq_true, if_false] at hf
    constructor
    · rw [ht, hf]
      simp [createdCount]
    · rw [ht]
      simp [stepsOf, List.getLast?_concat]
  · by_cases hD : D ≤ 1/10^6
    · have hDi : D ≤ ((10 : ℚ)^6)⁻¹ := by rwa [one_div] at hD
      constructor
      · simp [linearSteps, h1, hD, hDi, createdCount]
      · simp [linearSteps, h1, hD, hDi, stepsOf]
    · have hDi : ¬ D ≤ ((10 : ℚ)^6)⁻¹ := by rwa [one_div] at hD
      by_cases hW : spacingWalk d D = []
      · constructor
        · simp [linearSteps, h1, hD, hDi, hW, createdCount]
        · simp [linearSteps, h1, hD, hDi, hW, stepsOf]
      · constructor
        · simp [linearSteps, h1, hD, hDi, hW, createdCount]
        · simp [linearSteps, h1, hD, hDi, hW, stepsOf, List.getLast?_concat]
  · have hsv1 : ¬ sv ≤ 1/10^6 := not_le.mpr hsv
    have hsv2 : ¬ sv ≤ ((10 : ℚ)^6)⁻¹ := by rwa [one_div] at hsv1
    have hdir : (some dir : Option V3) ≠ none := by simp
    by_cases hM : (List.range (if cv < 0 then 0 else cv).toNat).map
        (fun i : ℕ => (i : ℤ) + 1) = []
    · refine ⟨?_, ?_, ?_⟩
      · simp [countModeSteps, countModeMultipliers, hsv1, hsv2, hM, createdCount]
      · simp [countModeSteps, countModeMultipliers, hsv1, hsv2, hM, stepsOf]
      · simp [countModeSteps, countModeMultipliers, hsv1, hsv2, hM, stepsOf,
          countModePositions]
    · refine ⟨?_, ?_, ?_⟩
      · simp [countModeSteps, countModeMultipliers, hsv1, hsv2, hM, createdCount]
      · simp [countModeSteps, countModeMultipliers, hsv1, hsv2, hM, stepsOf]
      · simp [countModeSteps, countModeMultipliers, hsv1, hsv2, hM, stepsOf,
          countModePositions]

/-- Witness for the amended C6: count 2 FixedCount gains a third step at 1.0
next to 1/3 and 2/3; spacing 5/2 across distance 10 gains a fourth step at
1.0; bbox count mode with clamped count 0 gains the single multiplier 1. -/
theorem include_end_adds_one_witness :
    ((1 : ℤ) ≤ 2 ∧ (0 : ℚ) < 5/2 ∧ (1 : ℚ)/10^6 < 2) ∧
    createdCount (linearSteps false none .absent 2 true 7) = 3 ∧
    (stepsOf (linearSteps false none (.value (5/2)) 2 true 10)).getLast? = some 1 ∧
    stepsOf (countModeSteps (some (2, some (⟨1, 0, 0⟩ : V3))) (some 0) true) = [1] := by
  have h := include_end_adds_one 2 (by decide) 7 (5/2) 10 (by norm_num) 2 (by norm_num)
    ⟨1, 0, 0⟩ 0 ⟨0, 0, 0⟩
  refine ⟨⟨by decide, by norm_num, by norm_num⟩, ?_, h.2.1.2, ?_⟩
  · rw [h.1.1]
    norm_num [linearSteps, createdCount, List.cons_ne_nil, show Int.toNat 2 = 2 from rfl,
      List.range_succ]
  · rw [h.2.2.2.1]
    simp [countModeSteps, countModeMultipliers, stepsOf]

/-! ## Claim C7 -/

/-- Counterexample to claim C7 as stated: an unparsable spacing parameter is
not fatal; the linear placer and the chain placer both complete with a
warning and an empty result. -/
theorem unparsable_param_counterexample :
    linearSteps false none .unparsable 5 false 10 = .emptyWarn
    ∧ linearSteps false none .unparsable 5 false 10 ≠ .fatal
    ∧ chainSpacingResolve false .unparsable = .emptyWarn := by
  exact ⟨rfl, by decide, rfl⟩

/-- Claim C7 as amended: an unparsable numeric parameter (spacing in either
placer, count in bbox count mode) makes the call complete immediately with a
warning and an empty result; it is a non-fatal diagnostic, not a propagated
error, and no placement is attempted. -/
theorem unparsable_param_nonfatal :
    (∀ (count : ℤ) (ie : Bool) (td : ℚ),
        linearSteps false none .unparsable count ie td = .emptyWarn)
    ∧ (∀ (sv : ℚ) (dir : Option V3) (ie : Bool),
        countModeSteps (some (sv, dir)) none ie = .emptyWarn)
    ∧ chainSpacingResolve false .unparsable = .emptyWarn
    ∧ (Outcome.emptyWarn : Outcome (List ℚ)) ≠ .fatal := by
  refine ⟨fun count ie td => rfl, fun sv dir ie => ?_, rfl, by decide⟩
  by_cases hc : sv ≤ 1/10^6 ∨ dir = none
  · simp [countModeSteps, hc]
  · simp [countModeSteps, hc]

/-! ## Claim C8 -/

/-- Claim C8: a radial placement with at least 1 instance and a valid axis
creates exactly N instances whose pivots rotate about the chosen axis by
i * (360/N) degrees in creation order, while an unrecognized axis label is a
fatal error. -/
theorem radial_rotations_spec (N : ℕ) (hN : 1 ≤ N) (axis : String)
    (hax : strLower axis = "x" ∨ strLower axis = "y" ∨ strLower axis = "z") :
    radialCall 2 axis N
        = .created ((List.range N).map (fun i : ℕ => 360 / (N : ℚ) * (i : ℚ)))
    ∧ (stepsOf (radialCall 2 axis N)).length = N
    ∧ (∀ i < N, (stepsOf (radialCall 2 axis N))[i]? = some ((i : ℚ) * (360 / (N : ℚ))))
    ∧ (∀ ax : String,
        ¬(strLower ax = "x" ∨ strLower ax = "y" ∨ strLower ax = "z") →
        radialCall 2 ax N = .fatal) := by
  have hN0 : ¬ N = 0 := by omega
  have hcall : radialCall 2 axis N
      = .created ((List.range N).map (fun i : ℕ => 360 / (N : ℚ) * (i : ℚ))) := by
    simp only [radialCall]
    rw [if_neg (by omega : ¬ (2 : ℕ) < 2), if_neg (not_not_intro hax), if_neg hN0]
  refine ⟨hcall, ?_, ?_, ?_⟩
  · rw [hcall]
    simp [stepsOf]
  · intro i hi
    rw [hcall]
    simp only [stepsOf]
    rw [List.getElem?_map, List.getElem?_range hi]
    simp [mul_comm]
  · intro ax hax2
    simp only [radialCall]
    rw [if_neg (by omega : ¬ (2 : ℕ) < 2), if_pos hax2]

/-- Witness for C8: four instances about Y rotate by 0, 90, 180 and 270
degrees in creation order; the axis label w is fatal. -/
theorem radial_rotations_spec_witness :
    ((1 : ℕ) ≤ 4 ∧ (strLower "y" = "x" ∨ strLower "y" = "y" ∨ strLower "y" = "z")) ∧
    radialCall 2 "y" 4 = .created [0, 90, 180, 270] ∧
    radialCall 2 "w" 4 = .fatal := by
  have h := radial_rotations_spec 4 (by decide) "y" (by decide)
  refine ⟨⟨by decide, by decide⟩, ?_, h.2.2.2 "w" (by decide)⟩
  rw [h.1]
  norm_num [List.range_succ]

/-! ## Claim C9 -/

/-- Claim C9: with alternating scale enabled, each odd-indexed instance has
the chosen local scale component negated relative to the template scale,
each even-indexed instance keeps it, and the two other components equal the
template values at every index. -/
theorem alternating_scale_spec (base : V3) (axis : String) (index : ℕ) :
    (index % 2 = 1 →
        getComp (instanceScale base axis index) (axIdx (axisOrX axis))
          = -(getComp base (axIdx (axisOrX axis))))
    ∧ (index % 2 = 0 →
        getComp (instanceScale base axis index) (axIdx (axisOrX axis))
          = getComp base (axIdx (axisOrX axis)))
    ∧ (∀ j < 3, j ≠ axIdx (axisOrX axis) →
        getComp (instanceScale base axis index) j = getComp base j) := by
  refine ⟨?_, ?_, ?_⟩
  · intro hodd
    simp only [instanceScale, if_pos hodd]
    rw [getComp_setComp_self]
    ring
  · intro heven
    have hne : ¬ index % 2 = 1 := by omega
    simp only [instanceScale, if_neg hne]
    rw [getComp_setComp_self]
    ring
  · intro j hj hne
    simp only [instanceScale]
    exact getComp_setComp_ne base _ j _ (axIdx_lt_three _) hj hne

/-- Witness for C9 at template scale (2,3,4), axis x, index 1: the instance
scale is (-2,3,4). -/
theorem alternating_scale_spec_witness :
    1 % 2 = 1 ∧
    instanceScale ⟨2, 3, 4⟩ "x" 1 = ⟨-2, 3, 4⟩ ∧
    getComp (instanceScale ⟨2, 3, 4⟩ "x" 1) (axIdx (axisOrX "x"))
      = -(getComp (⟨2, 3, 4⟩ : V3) (axIdx (axisOrX "x"))) := by
  refine ⟨rfl, ?_, (alternating_scale_spec ⟨2, 3, 4⟩ "x" 1).1 rfl⟩
  norm_num [instanceScale, show axisOrX "x" = "x" from rfl, axIdx, getComp, setComp]

/-! ## Claim C10 -/

/-- Claim C10: an axis label whose lowercase form is not x, y or z is
silently coerced to x by the linear placer's bbox-axis and alternate-axis
normalization and by the mirroring utility's normalization (no error, no
diagnostic), whereas the radial placer treats the same label as fatal. -/
theorem axis_coercion_spec (axis : String)
    (hx : strLower axis ≠ "x") (hy : strLower axis ≠ "y")
    (hz : strLower axis ≠ "z") :
    axisOrX axis = "x" ∧ normalizeAxis axis = "x"
      ∧ (∀ N : ℕ, radialCall 2 axis N = .fatal) := by
  have hcond : ∀ s : String, s = axis →
      ¬(strLower s = "x" ∨ strLower s = "y" ∨ strLower s = "z") := by
    intro s hs
    subst hs
    simp [hx, hy, hz]
  by_cases h0 : axis = ""
  · subst h0
    refine ⟨rfl, rfl, ?_⟩
    intro N
    simp only [radialCall]
    rw [if_neg (by omega : ¬ (2 : ℕ) < 2), if_pos (hcond "" rfl)]
  · refine ⟨?_, ?_, ?_⟩
    · simp only [axisOrX]
      rw [if_neg h0, if_neg (hcond axis rfl)]
    · simp only [normalizeAxis]
      rw [if_neg h0, if_neg (hcond axis rfl)]
    · intro N
      simp only [radialCall]
      rw [if_neg (by omega : ¬ (2 : ℕ) < 2), if_pos (hcond axis rfl)]

/-- Witness for C10 at the unrecognized label w: both linear-placer
normalizations and the mirror normalization coerce it to x, the radial
placer fails. -/
theorem axis_coercion_spec_witness :
    (strLower "w" ≠ "x" ∧ strLower "w" ≠ "y" ∧ strLower "w" ≠ "z") ∧
    axisOrX "w" = "x" ∧ normalizeAxis "w" = "x" ∧ radialCall 2 "w" 4 = .fatal := by
  have h := axis_coercion_spec "w" (by decide) (by decide) (by decide)
  exact ⟨⟨by decide, by decide, by decide⟩, h.1, h.2.1, h.2.2 4⟩

/-! ## Claim C3 -/

/-- Claim C3: in fill-box mode, a consecutive pair with measurable boxes
and longitudinal gap above 1e-6 yields exactly nd boxes of equal
longitudinal length gap/nd, tiled contiguously from the left box's far
projection to the right box's near projection (box i is centered at
left_max + (i + 1/2) * gap/nd with length gap/nd, and the nd segments end
exactly at the right projection); pairs with gap at most 1e-6 or an
unmeasurable box are skipped, and a chain call with at least two waypoints
never fails fatally in the loop. -/
theorem fill_boxes_subdivision (lc rc : List V3) (anchor dz : V3) (nd : ℕ)
    (hnd : 1 ≤ nd)
    (hgap : 1/10^6 < (projRange rc dz anchor).1 - (projRange lc dz anchor).2) :
    (fillPairSpans lc rc anchor dz nd).length = nd
    ∧ (∀ i < nd,
        (fillPairSpans lc rc anchor dz nd)[i]?
          = some ((projRange lc dz anchor).2
                + ((projRange rc dz anchor).1 - (projRange lc dz anchor).2) / (nd : ℚ) * (i : ℚ)
                + ((projRange rc dz anchor).1 - (projRange lc dz anchor).2) / (nd : ℚ) * (1/2),
              ((projRange rc dz anchor).1 - (projRange lc dz anchor).2) / (nd : ℚ)))
    ∧ (projRange lc dz anchor).2
        + ((projRange rc dz anchor).1 - (projRange lc dz anchor).2) / (nd : ℚ) * (nd : ℚ)
        = (projRange rc dz anchor).1
    ∧ (∀ (lc' rc' : List V3) (a' dz' : V3),
        (projRange rc' dz' a').1 - (projRange lc' dz' a').2 ≤ 1/10^6 →
        fillPairSpans lc' rc' a' dz' nd = [])
    ∧ (∀ (rb : Option BBoxData) (dz' : V3), fillPair none rb dz' nd = [])
    ∧ (∀ (lb : Option BBoxData) (dz' : V3), fillPair lb none dz' nd = [])
    ∧ (∀ (boxes : List (Option BBoxData)) (dirn : V3 → V3 → V3) (fd : Option ℤ),
        2 ≤ boxes.length → chainFillCall boxes dirn fd ≠ .fatal) := by
  have hnd0 : (nd : ℚ) ≠ 0 := Nat.cast_ne_zero.mpr (by omega)
  have hne : ¬ ((projRange rc dz anchor).1 - (projRange lc dz anchor).2 ≤ 1/10^6) :=
    not_le.mpr hgap
  have hif : fillPairSpans lc rc anchor dz nd
      = (List.range nd).map
          (fun dv : ℕ => ((projRange lc dz anchor).2
              + ((projRange rc dz anchor).1 - (projRange lc dz anchor).2) / (nd : ℚ) * (dv : ℚ)
              + ((projRange rc dz anchor).1 - (projRange lc dz anchor).2) / (nd : ℚ) * (1/2),
            ((projRange rc dz anchor).1 - (projRange lc dz anchor).2) / (nd : ℚ))) := by
    simp only [fillPairSpans]
    rw [if_neg hne]
  refine ⟨?_, ?_, ?_, ?_, ?_, ?_, ?_⟩
  · rw [hif]
    simp
  · intro i hi
    rw [hif, List.getElem?_map, List.getElem?_range hi]
    rfl
  · rw [div_mul_cancel₀ _ hnd0]
    ring
  · intro lc' rc' a' dz' hle
    simp only [fillPairSpans]
    rw [if_pos hle]
  · intro rb dz'
    rfl
  · intro lb dz'
    cases lb with
    | none => rfl
    | some b => rfl
  · intro boxes dirn fd hb
    simp only [chainFillCall]
    rw [if_neg (by omega : ¬ boxes.length < 2)]
    split <;> simp

/-- Witness for C3 on two axis-aligned unit cubes centered 4 apart along X
with 2 divisions: gap 3, two boxes of longitudinal length 3/2 centered at
scalars 5/4 and 11/4 (tiling 1/2..2 and 2..7/2), matching through fillPair
with the exactly normalized direction (1,0,0). -/
theorem fill_boxes_subdivision_witness :
    ((1 : ℕ) ≤ 2
      ∧ (1 : ℚ)/10^6 <
          (projRange (bboxCorners ⟨7/2, -1/2, -1/2⟩ ⟨9/2, 1/2, 1/2⟩) ⟨1, 0, 0⟩ ⟨0, 0, 0⟩).1
          - (projRange (bboxCorners ⟨-1/2, -1/2, -1/2⟩ ⟨1/2, 1/2, 1/2⟩) ⟨1, 0, 0⟩ ⟨0, 0, 0⟩).2) ∧
    (fillPairSpans (bboxCorners ⟨-1/2, -1/2, -1/2⟩ ⟨1/2, 1/2, 1/2⟩)
        (bboxCorners ⟨7/2, -1/2, -1/2⟩ ⟨9/2, 1/2, 1/2⟩) ⟨0, 0, 0⟩ ⟨1, 0, 0⟩ 2).length = 2 ∧
    fillPairSpans (bboxCorners ⟨-1/2, -1/2, -1/2⟩ ⟨1/2, 1/2, 1/2⟩)
        (bboxCorners ⟨7/2, -1/2, -1/2⟩ ⟨9/2, 1/2, 1/2⟩) ⟨0, 0, 0⟩ ⟨1, 0, 0⟩ 2
      = [(5/4, 3/2), (11/4, 3/2)] ∧
    fillPair (some (worldBBoxData ⟨-1/2, -1/2, -1/2⟩ ⟨1/2, 1/2, 1/2⟩))
        (some (worldBBoxData ⟨7/2, -1/2, -1/2⟩ ⟨9/2, 1/2, 1/2⟩)) ⟨1, 0, 0⟩ 2
      = [(5/4, 3/2), (11/4, 3/2)] := by
  have hgap : (1 : ℚ)/10^6 <
      (projRange (bboxCorners ⟨7/2, -1/2, -1/2⟩ ⟨9/2, 1/2, 1/2⟩) ⟨1, 0, 0⟩ ⟨0, 0, 0⟩).1
      - (projRange (bboxCorners ⟨-1/2, -1/2, -1/2⟩ ⟨1/2, 1/2, 1/2⟩) ⟨1, 0, 0⟩ ⟨0, 0, 0⟩).2 := by
    norm_num [projRange, bboxCorners, dot, vsub, min_def, max_def]
  have h := fill_boxes_subdivision
    (bboxCorners ⟨-1/2, -1/2, -1/2⟩ ⟨1/2, 1/2, 1/2⟩)
    (bboxCorners ⟨7/2, -1/2, -1/2⟩ ⟨9/2, 1/2, 1/2⟩) ⟨0, 0, 0⟩ ⟨1, 0, 0⟩ 2
    (by decide) hgap
  refine ⟨⟨by decide, hgap⟩, h.1, ?_, ?_⟩
  · norm_num [fillPairSpans, projRange, bboxCorners, dot, vsub, min_def, max_def,
      List.range_succ]
  · norm_num [fillPair, fillPairSpans, worldBBoxData, projRange, bboxCorners, dist2,
      dot, vsub, min_def, max_def, List.range_succ]

/-! ## Claim C2 -/

lemma chainOrderIndices_perm (pts : List V3) :
    (chainOrderIndices pts).Perm (List.range pts.length) :=
  List.mergeSort_perm _ _

lemma chainOrderIndices_sorted (pts : List V3) :
    List.Pairwise (fun i j => chainKey pts i ≤ chainKey pts j)
      (chainOrderIndices pts) := by
  have h := @List.sorted_mergeSort ℕ
    (fun i j => decide (chainKey pts i ≤ chainKey pts j))
    (fun a b c hab hbc => by
      simp only [decide_eq_true_eq] at hab hbc ⊢
      exact le_trans hab hbc)
    (fun a b => by
      simp only [Bool.or_eq_true, decide_eq_true_eq]
      exact le_total _ _)
    (List.range pts.length)
  exact h.imp (fun hab => of_decide_eq_true hab)

/-- Claim C2: the chain ordering (farthest pair as endpoints, ascending sort
by the projection of point minus A onto the A-to-B direction) permutes the
input: every node appears exactly once in the output, the index list is a
permutation of 0..n-1, and the output is sorted by the projection key. -/
theorem chain_order_perm_sorted {α : Type} (targets : List (α × V3))
    (_h2 : 2 ≤ targets.length) :
    (orderChain targets).Perm targets
    ∧ (chainOrderIndices (targets.map (fun t => t.2))).Perm
        (List.range targets.length)
    ∧ List.Pairwise
        (fun i j => chainKey (targets.map (fun t => t.2)) i
            ≤ chainKey (targets.map (fun t => t.2)) j)
        (chainOrderIndices (targets.map (fun t => t.2))) := by
  have hperm : (chainOrderIndices (targets.map (fun t => t.2))).Perm
      (List.range targets.length) := by
    have h := chainOrderIndices_perm (targets.map (fun t => t.2))
    rwa [List.length_map] at h
  refine ⟨?_, hperm, chainOrderIndices_sorted _⟩
  unfold orderChain
  have h1 : ((chainOrderIndices (targets.map (fun t => t.2))).filterMap
      (fun i => targets[i]?)).Perm
      ((List.range targets.length).filterMap (fun i => targets[i]?)) :=
    List.Perm.filterMap _ hperm
  rwa [filterMap_getElem?_range targets] at h1

/-- Witness for C2 on the three collinear waypoints of the spec example
(positions 2, 0, 1 on the x-axis): the reordered list is a permutation of
the input. -/
theorem chain_order_perm_sorted_witness :
    2 ≤ ([(("P2" : String), (⟨2, 0, 0⟩ : V3)), ("P0", ⟨0, 0, 0⟩),
          ("P1", ⟨1, 0, 0⟩)]).length ∧
    (orderChain [(("P2" : String), (⟨2, 0, 0⟩ : V3)), ("P0", ⟨0, 0, 0⟩),
          ("P1", ⟨1, 0, 0⟩)]).Perm
      [(("P2" : String), (⟨2, 0, 0⟩ : V3)), ("P0", ⟨0, 0, 0⟩), ("P1", ⟨1, 0, 0⟩)] :=
  ⟨by decide, (chain_order_perm_sorted _ (by decide)).1⟩

end BuildingTools
